import Mathlib

/-
Verification of the task-orchestration core of the claude-code-sandbox-bot
repository, as a shallow embedding in Lean 4.

Embedded source files:
  * src/src/task/models.py       (TaskStatus, Task, SandboxConfig, HumanQuestion)
  * src/src/task/concurrency.py  (ConcurrencyController)
  * src/src/task/manager.py      (TaskManagerImpl)
  * src/src/redis/client.py      (AsyncRedisClientImpl publish buffering, reconnect)
  * src/src/sandbox/aci.py       (AzureSandboxManagerImpl)
  * src/src/slack/question_handler.py (QuestionHandler)

Conventions of the embedding:
  * Python `async` methods that only touch component-local state under a lock
    are embedded as pure state-transition functions; an interleaving of calls
    is a list of operations folded over the state.
  * The Redis keyed store is a function `String → Option StoreVal`; a value is
    either a plain string (`StoreVal.str`, used for idempotency mappings) or a
    Task record (`StoreVal.task`, standing for the pydantic JSON serialization
    of the task, which round-trips).
  * Python floats in this code hold only small integral values (backoff
    seconds 1..30); they are embedded as rationals, on which the arithmetic
    `min (b * 2) 30` is exact, as it is on IEEE doubles at these values.
  * Code that raises is embedded with `Except`; external effects (Slack posts,
    the Azure API, the actual Redis transport) appear only as returned data or
    as explicit success/failure oracles.
-/

namespace SandboxBot

/-- `TaskStatus` from src/src/task/models.py: the eight lifecycle labels. -/
inductive TaskStatus where
  | pending
  | starting
  | cloning
  | running
  | waiting_user
  | completed
  | failed
  | cancelled
deriving DecidableEq, Repr

/-- `Task` from src/src/task/models.py.  The pydantic field validators
(id pattern, non-empty prompt, GitHub URL) are not needed by any claim and are
not modelled; the fields themselves are carried verbatim. -/
structure Task where
  id : String
  channel_id : String
  thread_ts : String
  user_id : String
  prompt : String
  repository_url : String
  status : TaskStatus
  created_at : ℚ
  idempotency_key : String
deriving DecidableEq, Repr

/-- `TERMINAL_STATES` from src/src/task/manager.py line 33. -/
def TERMINAL_STATES : List TaskStatus :=
  [TaskStatus.completed, TaskStatus.failed, TaskStatus.cancelled]

/-! ## Concurrency controller (src/src/task/concurrency.py)

`_running_count` is a Python `int`, so it is embedded as `Int` (not `Nat`):
that the count never becomes negative is a property of the code's guard, not
of the carrier type. -/

/-- State of `ConcurrencyController`: `_max_concurrent`, `_running_count` and
the FIFO `_queue` (an `asyncio.Queue`, `put` appends at the back,
`get_nowait` removes at the front).  The `asyncio.Lock` makes each method
atomic, which the embedding renders by making each method one step. -/
structure ConcurrencyController where
  max_concurrent : Int
  running_count : Int
  queue : List Task
deriving Repr

/-- `ConcurrencyController.__init__`: count 0, empty queue. -/
def ConcurrencyController.init (max_concurrent : Int) : ConcurrencyController :=
  { max_concurrent := max_concurrent, running_count := 0, queue := [] }

/-- `ConcurrencyController.acquire` (concurrency.py lines 66-88): under the
lock, if `running_count < max_concurrent` increment and return `True`, else
return `False` leaving the state unchanged. -/
def ConcurrencyController.acquire (c : ConcurrencyController) :
    Bool × ConcurrencyController :=
  if c.running_count < c.max_concurrent then
    (true, { c with running_count := c.running_count + 1 })
  else
    (false, c)

/-- `ConcurrencyController.release` (concurrency.py lines 90-123): under the
lock, decrement `running_count` only when it is positive (the clamp at 0);
then, if the queue is non-empty, remove its head, increment `running_count`
again to reserve the slot, and return the dequeued task. -/
def ConcurrencyController.release (c : ConcurrencyController) :
    Option Task × ConcurrencyController :=
  let c1 := if c.running_count > 0 then
      { c with running_count := c.running_count - 1 }
    else c
  match c1.queue with
  | [] => (none, c1)
  | t :: rest =>
      (some t, { c1 with running_count := c1.running_count + 1, queue := rest })

/-- `ConcurrencyController.enqueue` (concurrency.py lines 125-136): append the
task at the back of the FIFO queue. -/
def ConcurrencyController.enqueue (c : ConcurrencyController) (t : Task) :
    ConcurrencyController :=
  { c with queue := c.queue ++ [t] }

/-- One externally issued call on the controller.  The `asyncio.Lock` in the
source serializes the bodies, so an arbitrary interleaving of concurrent
callers is exactly a finite sequence of these operations. -/
inductive CCOp where
  | acquireOp
  | releaseOp
  | enqueueOp (t : Task)

/-- Apply one call to the controller state (result values dropped). -/
def CCOp.apply (c : ConcurrencyController) : CCOp → ConcurrencyController
  | CCOp.acquireOp => (c.acquire).2
  | CCOp.releaseOp => (c.release).2
  | CCOp.enqueueOp t => c.enqueue t

/-- Run a finite sequence of controller calls. -/
def runOps (c : ConcurrencyController) (ops : List CCOp) : ConcurrencyController :=
  ops.foldl CCOp.apply c

/-- Trace of a run instrumented with the observable history: final state,
the tasks returned by `release` in order, and the tasks passed to `enqueue`
in order. -/
structure CCTrace where
  state : ConcurrencyController
  released : List Task
  enqueued : List Task

/-- Apply one call, recording released and enqueued tasks. -/
def CCOp.applyTr (tr : CCTrace) : CCOp → CCTrace
  | CCOp.acquireOp => { tr with state := (tr.state.acquire).2 }
  | CCOp.releaseOp =>
      match tr.state.release with
      | (some t, c2) => { state := c2, released := tr.released ++ [t], enqueued := tr.enqueued }
      | (none, c2) => { tr with state := c2 }
  | CCOp.enqueueOp t =>
      { tr with state := tr.state.enqueue t, enqueued := tr.enqueued ++ [t] }

/-- Run a sequence of controller calls from the freshly initialized
controller, recording the released/enqueued histories. -/
def runTrace (m : Int) (ops : List CCOp) : CCTrace :=
  ops.foldl CCOp.applyTr { state := ConcurrencyController.init m, released := [], enqueued := [] }

/-! ## Keyed store (the Redis string keyspace as used by the Task Manager)

The Task Manager and Question Handler use `self._redis.get`/`set` on keys
`idempotency:{key}` (value: a task id string) and `task:{id}` (value: the
pydantic JSON serialization of the Task).  The store is embedded as a partial
map from keys to values; a serialized Task is carried as the Task itself
(`StoreVal.task`), which is faithful because `model_dump_json` /
`model_validate_json` round-trip. -/

/-- A value held in the keyed store. -/
inductive StoreVal where
  | str (s : String)
  | task (t : Task)
deriving DecidableEq, Repr

/-- The string form the code's `get` would return for a stored value: a plain
string is returned as is; a stored Task was written as its JSON text, which
the embedding does not reproduce byte-for-byte (no claim inspects it) and
renders with `reprStr`. -/
def StoreVal.asString : StoreVal → String
  | StoreVal.str s => s
  | StoreVal.task t => reprStr t

/-- The keyed store. -/
def Store : Type := String → Option StoreVal

/-- `redis.set key value` (no claim uses the `ex` expiration argument). -/
def Store.set (s : Store) (k : String) (v : StoreVal) : Store :=
  fun k2 => if k2 = k then some v else s k2

/-- The empty store. -/
def Store.empty : Store := fun _ => none

/-! ## Task manager (src/src/task/manager.py, class TaskManagerImpl)

Each method runs a sequence of awaited store / controller calls; the single
active orchestrator issues them one call at a time, so a method is embedded
as a function from the (store, controller) pair to the new pair plus the
returned value. -/

/-- `TaskManagerImpl.submit` (manager.py lines 136-211).
Step 1: `get("idempotency:"+key)`; if present, return the stored string with
no writes and without touching the controller.
Step 2: write the idempotency mapping and the task record (status as passed,
`pending` at intake).
Step 3: if a controller is wired, `acquire()`; on failure `enqueue(task)` and
return with the task still pending.
Step 4: set the status to `starting` and persist again.
Returns (returned task id, store, controller). -/
def submit (redis : Store) (cc : Option ConcurrencyController) (task : Task) :
    String × Store × Option ConcurrencyController :=
  match redis ("idempotency:" ++ task.idempotency_key) with
  | some v => (v.asString, redis, cc)
  | none =>
      let redis1 :=
        (redis.set ("idempotency:" ++ task.idempotency_key) (StoreVal.str task.id)).set
          ("task:" ++ task.id) (StoreVal.task task)
      match cc with
      | some c =>
          let res := c.acquire
          if res.1 then
            let task2 := { task with status := TaskStatus.starting }
            (task.id, redis1.set ("task:" ++ task.id) (StoreVal.task task2), some res.2)
          else
            (task.id, redis1, some (res.2.enqueue task))
      | none =>
          let task2 := { task with status := TaskStatus.starting }
          (task.id, redis1.set ("task:" ++ task.id) (StoreVal.task task2), none)

/-- A sequence of `submit` calls, returning the ids handed back to the
callers in order, and the final store and controller. -/
def submitSeq (redis : Store) (cc : Option ConcurrencyController) :
    List Task → List String × Store × Option ConcurrencyController
  | [] => ([], redis, cc)
  | t :: rest =>
      let out := submit redis cc t
      let outs := submitSeq out.2.1 out.2.2 rest
      (out.1 :: outs.1, outs.2)

/-- `TaskManagerImpl.on_task_complete` (manager.py lines 286-315): with no
controller wired, return nothing; else `release()`, and if a queued task is
returned, set its status to `starting`, persist it, and return it. -/
def on_task_complete (redis : Store) (cc : Option ConcurrencyController) :
    Option Task × Store × Option ConcurrencyController :=
  match cc with
  | none => (none, redis, none)
  | some c =>
      match c.release with
      | (none, c2) => (none, redis, some c2)
      | (some t, c2) =>
          let t2 := { t with status := TaskStatus.starting }
          (some t2, redis.set ("task:" ++ t.id) (StoreVal.task t2), some c2)

/-- `TaskManagerImpl.cancel` (manager.py lines 341-381): load `task:{id}`;
absent → `False`, no write.  A stored plain string is not valid Task JSON, so
`model_validate_json` raises (embedded as `Except.error`).  A task in a
terminal state → `False`, no write; otherwise set the status to `cancelled`,
persist under `task:{task.id}`, and return `True`. -/
def cancel (redis : Store) (task_id : String) : Except String (Bool × Store) :=
  match redis ("task:" ++ task_id) with
  | none => Except.ok (false, redis)
  | some (StoreVal.str _) => Except.error "pydantic ValidationError"
  | some (StoreVal.task t) =>
      if t.status ∈ TERMINAL_STATES then
        Except.ok (false, redis)
      else
        let t2 := { t with status := TaskStatus.cancelled }
        Except.ok (true, redis.set ("task:" ++ t.id) (StoreVal.task t2))

/-! ## Question handler (src/src/slack/question_handler.py)

`handle_question` suspends between its registration phase and its completion
(answer or timeout), so it is embedded in three steps; `submit_answer` is a
single atomic step on the future map. -/

/-- `HumanQuestion` from src/src/task/models.py. -/
structure HumanQuestion where
  task_id : String
  question : String
  options : Option (List String) := none
  timeout_seconds : Nat := 600
deriving DecidableEq, Repr

/-- State of an `asyncio.Future[str]`: created unfulfilled, fulfilled once by
`set_result`. -/
inductive FutVal where
  | pendingF
  | doneF (answer : String)
deriving DecidableEq, Repr

/-- The `QuestionHandler`-owned maps: `_pending_questions` and
`_answer_futures` (an absent entry is a key not in the dict). -/
structure QHState where
  pending_questions : String → Option HumanQuestion
  answer_futures : String → Option FutVal

/-- `QuestionHandler` state at construction: both maps empty. -/
def QHState.init : QHState :=
  { pending_questions := fun _ => none, answer_futures := fun _ => none }

/-- The phase of `QuestionHandler.handle_question` up to its suspension on
the answer future (question_handler.py lines 100-160): build a
`HumanQuestion`, register it in `_pending_questions`, set the task's status
to `waiting_user` and persist it (no check of the persisted status is made),
post the question to the Slack thread (external effect, not modelled), create
the unfulfilled answer future and register it.  Returns the new store, the
new handler state and the mutated task object the waiter holds. -/
def handle_question_start (redis : Store) (q : QHState) (task : Task)
    (question : String) (timeout_seconds : Nat) : Store × QHState × Task :=
  let hq : HumanQuestion :=
    { task_id := task.id, question := question, timeout_seconds := timeout_seconds }
  let task1 := { task with status := TaskStatus.waiting_user }
  let redis1 := redis.set ("task:" ++ task.id) (StoreVal.task task1)
  let q1 : QHState :=
    { pending_questions := fun k => if k = task.id then some hq else q.pending_questions k,
      answer_futures := fun k => if k = task.id then some FutVal.pendingF else q.answer_futures k }
  (redis1, q1, task1)

/-- The `finally` block of `handle_question` (lines 192-195): pop the pending
question and the answer future for the task. -/
def handle_question_cleanup (q : QHState) (task_id : String) : QHState :=
  { pending_questions := fun k => if k = task_id then none else q.pending_questions k,
    answer_futures := fun k => if k = task_id then none else q.answer_futures k }

/-- The timeout branch of `handle_question` (lines 170-195): set the task's
status to `cancelled` and persist it (again without consulting the persisted
record), notify the user (external effect), return no answer, and run the
cleanup. -/
def handle_question_timeout (redis : Store) (q : QHState) (task1 : Task) :
    Store × QHState :=
  let task2 := { task1 with status := TaskStatus.cancelled }
  (redis.set ("task:" ++ task1.id) (StoreVal.task task2),
   handle_question_cleanup q task1.id)

/-- `QuestionHandler.submit_answer` (question_handler.py lines 197-217): if
`_answer_futures` holds an unfulfilled future for the task, fulfil it with
the answer and return `True`; otherwise return `False` and change nothing. -/
def submit_answer (q : QHState) (task_id answer : String) : Bool × QHState :=
  match q.answer_futures task_id with
  | some FutVal.pendingF =>
      (true,
       { q with answer_futures :=
          fun k => if k = task_id then some (FutVal.doneF answer) else q.answer_futures k })
  | _ => (false, q)

/-- A sequence of `submit_answer` calls, with each call's `(task_id, result)`
recorded in order. -/
def submitAnswerResults (q : QHState) : List (String × String) → List (String × Bool)
  | [] => []
  | (tid, ans) :: rest =>
      let out := submit_answer q tid ans
      (tid, out.1) :: submitAnswerResults out.2 rest

/-- How many calls aimed at `tid` in a recorded sequence returned `True`. -/
def countTrueFor (tid : String) (rs : List (String × Bool)) : Nat :=
  (rs.filter (fun p => p.1 == tid && p.2)).length

/-- The answer branch of the `on_question` callback in
`handle_question_from_redis` (question_handler.py lines 281-292): publish the
answer on `answer:{task_id}` (pub/sub effect, not modelled on the store) and
set the task's status back to `running`, persisting it unconditionally. -/
def on_question_answer_followup (redis : Store) (task1 : Task) : Store :=
  let task2 := { task1 with status := TaskStatus.running }
  redis.set ("task:" ++ task1.id) (StoreVal.task task2)

/-! ## Redis client resilience (src/src/redis/client.py)

Only the component-local state matters to the claims: the `_connected` flag
and the bounded `_local_queue` (a `collections.deque` with `maxlen=100`).
Transport success/failure is an explicit oracle. -/

/-- `LOCAL_QUEUE_MAX_SIZE` from src/src/redis/client.py line 23. -/
def LOCAL_QUEUE_MAX_SIZE : Nat := 100

/-- Connection flag plus local queue of `(channel, message)` pairs. -/
structure RedisClientState where
  connected : Bool
  local_queue : List (String × String)
deriving DecidableEq, Repr

/-- `AsyncRedisClientImpl._add_to_local_queue` (client.py lines 247-261):
`deque.append` with `maxlen=100` — when the queue is full the oldest entry is
discarded as the new one is appended. -/
def add_to_local_queue (q : List (String × String)) (cm : String × String) :
    List (String × String) :=
  let q2 := q ++ [cm]
  if LOCAL_QUEUE_MAX_SIZE < q2.length then q2.drop (q2.length - LOCAL_QUEUE_MAX_SIZE) else q2

/-- `AsyncRedisClientImpl.publish` (client.py lines 139-162).  Every path
returns normally — a disconnected client buffers and starts reconnection; a
transport failure on a connected client is caught, flips `_connected` and
buffers — so the result type is the state itself, never an exception.
`transport_delivers` tells whether the underlying `self._redis.publish`
succeeds; the returned `Option` is the message actually handed to the
transport, if any. -/
def publish (transport_delivers : Bool) (st : RedisClientState)
    (cm : String × String) : RedisClientState × Option (String × String) :=
  if st.connected then
    if transport_delivers then (st, some cm)
    else ({ connected := false, local_queue := add_to_local_queue st.local_queue cm }, none)
  else
    ({ st with local_queue := add_to_local_queue st.local_queue cm }, none)

/-- A run of `publish` calls on a disconnected client (the reconnection task
the code starts in this branch only runs after the synchronous appends, and
is modelled as the separate `flushLocalQueue` step). -/
def publishAllDisconnected (st : RedisClientState) (msgs : List (String × String)) :
    RedisClientState :=
  msgs.foldl (fun s cm => (publish false s cm).1) st

/-- `AsyncRedisClientImpl._flush_local_queue` (client.py lines 291-305): pop
the queue from the front, publishing each message; on the first transport
failure push the failed message back to the front and stop (the client
returns to disconnected).  `ok n` tells whether the n-th flush publish
succeeds.  Returns (messages delivered in order, queue left behind). -/
def flushLocalQueue (ok : Nat → Bool) : Nat → List (String × String) →
    List (String × String) × List (String × String)
  | _, [] => ([], [])
  | n, cm :: rest =>
      if ok n then
        let out := flushLocalQueue ok (n + 1) rest
        (cm :: out.1, out.2)
      else
        ([], cm :: rest)

/-- `AsyncRedisClientImpl` backoff constants (client.py lines 96-98). -/
def INITIAL_BACKOFF : ℚ := 1

/-- Maximum backoff, 30 seconds. -/
def MAX_BACKOFF : ℚ := 30

/-- Backoff multiplier, doubling. -/
def BACKOFF_MULTIPLIER : ℚ := 2

/-- The backoff update `backoff = min(backoff * BACKOFF_MULTIPLIER, MAX_BACKOFF)`
(client.py line 289). -/
def nextBackoff (b : ℚ) : ℚ := min (b * BACKOFF_MULTIPLIER) MAX_BACKOFF

/-- `AsyncRedisClientImpl._reconnect` (client.py lines 269-289), instrumented
with the sleep intervals it performs.  `pingOk i` tells whether the i-th ping
attempt succeeds; on success the loop flushes and returns without sleeping,
on failure it sleeps the current backoff and doubles it (capped).  `fuel`
bounds the unrolling of the unbounded `while` loop; any run that succeeds at
attempt `k < fuel` is fully captured. -/
def reconnectSleeps (pingOk : Nat → Bool) : Nat → ℚ → Nat → List ℚ
  | 0, _, _ => []
  | fuel + 1, b, i =>
      if pingOk i then []
      else b :: reconnectSleeps pingOk fuel (nextBackoff b) (i + 1)

/-- The spec's reference stream 1, 2, 4, 8, 16, 30, 30, … -/
def backoffStream (i : Nat) : ℚ := if i < 5 then 2 ^ i else 30

/-- The backoff in force when the i-th ping attempt of a `_reconnect` run
fails: `INITIAL_BACKOFF` iterated through `nextBackoff`. -/
def backoffAt : Nat → ℚ
  | 0 => INITIAL_BACKOFF
  | n + 1 => nextBackoff (backoffAt n)

/-! ## Sandbox manager (src/src/sandbox/aci.py) -/

/-- `SandboxStatus` from src/src/sandbox/aci.py lines 36-53. -/
inductive SandboxStatus where
  | creating
  | starting
  | cloning
  | running
  | terminated
  | failed
deriving DecidableEq, Repr

/-- `Sandbox` from src/src/sandbox/aci.py lines 56-71. -/
structure Sandbox where
  task_id : String
  container_group_name : String
  status : SandboxStatus
  created_at : ℚ
deriving DecidableEq, Repr

/-- The live-sandbox map `AzureSandboxManagerImpl._sandboxes`. -/
def SandboxMap : Type := String → Option Sandbox

/-- `AzureSandboxManagerImpl.get_status` (aci.py lines 447-461): an unknown
task id yields `TERMINATED`; a tracked one yields its recorded status. -/
def get_status (m : SandboxMap) (task_id : String) : SandboxStatus :=
  match m task_id with
  | none => SandboxStatus.terminated
  | some sb => sb.status

/-- `AzureSandboxManagerImpl.destroy` (aci.py lines 417-445): an unknown task
id is a no-op (logged warning); a tracked one has its container group deleted
(external, best-effort) and its entry removed from the map. -/
def destroy (m : SandboxMap) (task_id : String) : SandboxMap :=
  match m task_id with
  | none => m
  | some _ => fun k => if k = task_id then none else m k

/-- `SandboxConfig` exactly as declared in src/src/task/models.py lines
71-86: image, cpu, memory_gb, environment, and nothing else. -/
structure SandboxConfig where
  image : String
  cpu : ℚ
  memory_gb : ℚ
  environment : List (String × String)
deriving DecidableEq, Repr

/-- The pydantic field names `SandboxConfig` declares (models.py lines
83-86).  pydantic `BaseModel` resolves attribute access through the declared
fields and raises `AttributeError` for any other name (the model has no
`extra="allow"` configuration). -/
def sandboxConfigFields : List String := ["image", "cpu", "memory_gb", "environment"]

/-- Attribute lookup on a `SandboxConfig` instance by field name, under
pydantic `BaseModel` semantics: defined for declared fields, `AttributeError`
otherwise. -/
def sandboxConfigHasAttr (name : String) : Except String Unit :=
  if name ∈ sandboxConfigFields then Except.ok ()
  else Except.error ("AttributeError: " ++ name)

/-- An ASCII single quote, for embedding shell text without apostrophe
literals. -/
def sq : String := String.singleton (Char.ofNat 39)

/-- The shell script `AzureSandboxManagerImpl._build_execution_command`
injects (aci.py lines 221-237), stripped: clone with the PAT when present,
else anonymously; change into the clone; run the assistant CLI with the
skip-permissions flag and the prompt. -/
def executionScript : String :=
  "set -e\n\n" ++
  "# Clone repository\n" ++
  "if [ -n \"$GITHUB_PAT\" ]; then\n" ++
  "    # Extract owner/repo from URL\n" ++
  "    REPO_PATH=$(echo \"$REPOSITORY_URL\" | sed " ++ sq ++
  "s|https://github.com/||" ++ sq ++ ")\n" ++
  "    git clone \"https://$\x7bGITHUB_PAT\x7d@github.com/$\x7bREPO_PATH\x7d\" /workspace/repo\n" ++
  "else\n" ++
  "    git clone \"$REPOSITORY_URL\" /workspace/repo\n" ++
  "fi\n\n" ++
  "cd /workspace/repo\n\n" ++
  "# Execute Claude Code\n" ++
  "claude --dangerously-skip-permissions -p \"$PROMPT\" 2>&1"

/-- `AzureSandboxManagerImpl._build_execution_command` (aci.py lines
202-239) as it behaves on the `SandboxConfig` that models.py declares: the
very first statement reads `config.repository_url`, an attribute the model
does not declare, so pydantic raises `AttributeError` before any command can
be built.  (On success for a config with no repository URL the method would
return `None`; see `build_execution_command_spec`.) -/
def build_execution_command (_cfg : SandboxConfig) :
    Except String (Option (List String)) :=
  match sandboxConfigHasAttr "repository_url" with
  | Except.error e => Except.error e
  | Except.ok _ => Except.ok (some ["/bin/bash", "-c", executionScript])

/-- Modelled from the spec: `SandboxConfig` as §3 of the spec and the
repository's own tests (tests/unit/test_models.py, classes
`test_optional_github_fields_default_to_none` and following) describe it —
with the optional fields `repository_url`, `github_pat` (the spec's
`credential_token`) and `prompt`, each defaulting to `None` — which
src/src/task/models.py is missing. -/
structure SandboxConfigSpec where
  image : String
  cpu : ℚ
  memory_gb : ℚ
  environment : List (String × String)
  repository_url : Option String := none
  github_pat : Option String := none
  prompt : Option String := none
deriving DecidableEq, Repr

/-- `_build_execution_command` on the spec-modelled config: `None` — hence
no command injected, the container runs its image default — exactly when
`repository_url` is absent; otherwise the shell script. -/
def build_execution_command_spec (cfg : SandboxConfigSpec) : Option (List String) :=
  match cfg.repository_url with
  | none => none
  | some _ => some ["/bin/bash", "-c", executionScript]

/-! ## Concrete sample data for witnesses and counterexamples -/

/-- A concrete Task with the given id, idempotency key and status; the other
fields are fixed plausible Slack intake values. -/
def sampleTask (i k : String) (st : TaskStatus) : Task :=
  { id := i
    channel_id := "C0123456789"
    thread_ts := "1700000000.000100"
    user_id := "U0123456789"
    prompt := "please audit"
    repository_url := "https://github.com/acme/svc"
    status := st
    created_at := 0
    idempotency_key := k }

/-- A canonical 36-character task id. -/
def sampleId : String := "aaaaaaaa-bbbb-cccc-dddd-eeeeeeeeeeee"

/-- A second task id. -/
def sampleId2 : String := "11111111-2222-3333-4444-555555555555"

/-- A handler state with one unfulfilled answer future, for `sampleId`. -/
def sampleQH : QHState :=
  { pending_questions := fun _ => none,
    answer_futures := fun k => if k = sampleId then some FutVal.pendingF else none }

/-- A concrete live sandbox for `sampleId`. -/
def sampleSandbox : Sandbox :=
  { task_id := sampleId
    container_group_name := "sandbox-aaaaaaaa"
    status := SandboxStatus.running
    created_at := 0 }

/-- A live-sandbox map holding exactly `sampleSandbox`. -/
def sampleSandboxMap : SandboxMap :=
  fun k => if k = sampleId then some sampleSandbox else none

/-! ## Helper lemmas -/

/-- The key namespaces `task:` and `idempotency:` never collide. -/
theorem task_key_ne_idem_key (a b : String) :
    ("task:" ++ a) ≠ ("idempotency:" ++ b) := by
  intro h
  have h1 : ("task:" ++ a).data = ("idempotency:" ++ b).data := by rw [h]
  rw [String.data_append, String.data_append] at h1
  have e1 : "task:".data = ['t', 'a', 's', 'k', ':'] := rfl
  have e2 : "idempotency:".data
      = ['i', 'd', 'e', 'm', 'p', 'o', 't', 'e', 'n', 'c', 'y', ':'] := rfl
  rw [e1, e2] at h1
  simp at h1

/-- Two `task:{id}` keys agree exactly when the ids do. -/
theorem task_key_inj {a b : String} (h : ("task:" ++ a) = ("task:" ++ b)) :
    a = b := by
  have h1 := congrArg String.data h
  rw [String.data_append, String.data_append] at h1
  exact String.ext (List.append_cancel_left h1)

/-- `acquire` never changes the queue. -/
theorem acquire_queue (c : ConcurrencyController) :
    (c.acquire).2.queue = c.queue := by
  unfold ConcurrencyController.acquire
  split_ifs <;> rfl

/-- `acquire` never changes the ceiling. -/
theorem acquire_max (c : ConcurrencyController) :
    (c.acquire).2.max_concurrent = c.max_concurrent := by
  unfold ConcurrencyController.acquire
  split_ifs <;> rfl

/-- `release` on an empty queue: no task, count clamp-decremented. -/
theorem release_nil (c : ConcurrencyController) (h : c.queue = []) :
    c.release = (none,
      { c with running_count :=
          if 0 < c.running_count then c.running_count - 1 else c.running_count }) := by
  obtain ⟨mx, rc, q⟩ := c
  simp only at h
  subst h
  unfold ConcurrencyController.release
  split_ifs with hpos <;> simp [hpos]

/-- `release` on a non-empty queue: the head is returned, the count is
clamp-decremented and re-incremented, the tail remains. -/
theorem release_cons (c : ConcurrencyController) (t : Task) (rest : List Task)
    (h : c.queue = t :: rest) :
    c.release = (some t,
      { c with
          running_count :=
            (if 0 < c.running_count then c.running_count - 1 else c.running_count) + 1,
          queue := rest }) := by
  obtain ⟨mx, rc, q⟩ := c
  simp only at h
  subst h
  unfold ConcurrencyController.release
  split_ifs with hpos <;> simp [hpos]

/-- One controller call preserves the ceiling and the count bounds. -/
theorem cc_step_inv (m : Int) (hm : 0 < m) (c : ConcurrencyController) (op : CCOp)
    (h1 : c.max_concurrent = m) (h2 : 0 ≤ c.running_count) (h3 : c.running_count ≤ m) :
    (CCOp.apply c op).max_concurrent = m
    ∧ 0 ≤ (CCOp.apply c op).running_count
    ∧ (CCOp.apply c op).running_count ≤ m := by
  cases op with
  | acquireOp =>
      simp only [CCOp.apply]
      unfold ConcurrencyController.acquire
      split_ifs with h <;> simp <;> omega
  | releaseOp =>
      simp only [CCOp.apply]
      cases hq : c.queue with
      | nil => rw [release_nil c hq]; simp; constructor <;> [omega; omega]
      | cons t rest => rw [release_cons c t rest hq]; simp; constructor <;> [omega; omega]
  | enqueueOp t =>
      simp only [CCOp.apply, ConcurrencyController.enqueue]
      exact ⟨h1, h2, h3⟩

/-- A run of controller calls preserves the ceiling and the count bounds. -/
theorem cc_runOps_inv (m : Int) (hm : 0 < m) (ops : List CCOp) :
    ∀ c : ConcurrencyController,
      c.max_concurrent = m → 0 ≤ c.running_count → c.running_count ≤ m →
      (runOps c ops).max_concurrent = m
      ∧ 0 ≤ (runOps c ops).running_count
      ∧ (runOps c ops).running_count ≤ m := by
  induction ops with
  | nil => intro c h1 h2 h3; exact ⟨h1, h2, h3⟩
  | cons op rest ih =>
      intro c h1 h2 h3
      have hstep := cc_step_inv m hm c op h1 h2 h3
      exact ih (CCOp.apply c op) hstep.1 hstep.2.1 hstep.2.2

/-- C1: with any positive `max_concurrent`, under every finite interleaving
of `acquire` / `release` / `enqueue` the running count stays within
`[0, max_concurrent]`; and on every state, `acquire` increments and returns
`True` exactly when the count is below the ceiling (else returns `False`
unchanged), while `release` clamp-decrements the count and, when the queue is
non-empty, increments it again and returns the dequeued head. -/
theorem C1_concurrency_ceiling (m : Int) (hm : 0 < m) (ops : List CCOp) :
    (0 ≤ (runOps (ConcurrencyController.init m) ops).running_count
      ∧ (runOps (ConcurrencyController.init m) ops).running_count ≤ m)
    ∧ (∀ c : ConcurrencyController,
        (c.running_count < c.max_concurrent →
          c.acquire = (true, { c with running_count := c.running_count + 1 }))
        ∧ (¬ c.running_count < c.max_concurrent → c.acquire = (false, c))
        ∧ (c.queue = [] → (c.release).1 = none ∧
            (c.release).2.running_count
              = if 0 < c.running_count then c.running_count - 1 else c.running_count)
        ∧ (∀ t rest, c.queue = t :: rest → (c.release).1 = some t ∧
            (c.release).2.queue = rest ∧
            (c.release).2.running_count
              = (if 0 < c.running_count then c.running_count - 1 else c.running_count) + 1)) := by
  constructor
  · have h := cc_runOps_inv m hm ops (ConcurrencyController.init m) rfl le_rfl (le_of_lt hm)
    exact ⟨h.2.1, h.2.2⟩
  · intro c
    refine ⟨?_, ?_, ?_, ?_⟩
    · intro h; unfold ConcurrencyController.acquire; simp [h]
    · intro h; unfold ConcurrencyController.acquire; simp [h]
    · intro h; rw [release_nil c h]; exact ⟨rfl, rfl⟩
    · intro t rest h; rw [release_cons c t rest h]; exact ⟨rfl, rfl, rfl⟩

/-- Witness for C1 at `max_concurrent = 2` and a concrete interleaving. -/
theorem C1_concurrency_ceiling_witness :
    (0 < (2 : Int)) ∧
    (0 ≤ (runOps (ConcurrencyController.init 2)
            [CCOp.acquireOp, CCOp.acquireOp, CCOp.acquireOp]).running_count
      ∧ (runOps (ConcurrencyController.init 2)
            [CCOp.acquireOp, CCOp.acquireOp, CCOp.acquireOp]).running_count ≤ 2) :=
  ⟨by norm_num, (C1_concurrency_ceiling 2 (by norm_num)
      [CCOp.acquireOp, CCOp.acquireOp, CCOp.acquireOp]).1⟩

/-- The released history concatenated with the current queue is the enqueued
history, down every trace. -/
theorem cc_trace_inv (ops : List CCOp) :
    ∀ tr : CCTrace, tr.released ++ tr.state.queue = tr.enqueued →
      (ops.foldl CCOp.applyTr tr).released ++ (ops.foldl CCOp.applyTr tr).state.queue
        = (ops.foldl CCOp.applyTr tr).enqueued := by
  induction ops with
  | nil => intro tr h; exact h
  | cons op rest ih =>
      intro tr h
      apply ih
      cases op with
      | acquireOp =>
          simp only [CCOp.applyTr]
          rw [acquire_queue]
          exact h
      | releaseOp =>
          simp only [CCOp.applyTr]
          cases hq : tr.state.queue with
          | nil =>
              rw [release_nil tr.state hq]
              simpa [hq] using h
          | cons t restq =>
              rw [release_cons tr.state t restq hq]
              rw [hq] at h
              simpa using h
      | enqueueOp t =>
          simp only [CCOp.applyTr, ConcurrencyController.enqueue]
          rw [← h]
          simp

/-- C7: over every finite call sequence on a fresh controller, the tasks
returned by `release`, in order, followed by the tasks still queued, are
exactly the tasks passed to `enqueue` in order; in particular the released
tasks are the initial segment of the enqueue order, so a task enqueued
earlier is admitted no later than one enqueued after it. -/
theorem C7_fifo_order (m : Int) (ops : List CCOp) :
    (runTrace m ops).released ++ (runTrace m ops).state.queue = (runTrace m ops).enqueued
    ∧ (runTrace m ops).released
        = (runTrace m ops).enqueued.take (runTrace m ops).released.length := by
  have h : (runTrace m ops).released ++ (runTrace m ops).state.queue
      = (runTrace m ops).enqueued :=
    cc_trace_inv ops
      { state := ConcurrencyController.init m, released := [], enqueued := [] } rfl
  refine ⟨h, ?_⟩
  rw [← h, List.take_left]

/-- C8: `cancel(task_id)` returns `True` exactly when the store holds a task
record for `task_id` in a non-terminal status; exactly then it writes that
record back (and only it) with status `cancelled`, and in every `False` case
the store is untouched. -/
theorem C8_cancel_iff (s : Store) (tid : String)
    (hwf : s ("task:" ++ tid) = none
      ∨ ∃ t : Task, s ("task:" ++ tid) = some (StoreVal.task t) ∧ t.id = tid) :
    ∃ b s2, cancel s tid = Except.ok (b, s2)
      ∧ (b = true ↔ ∃ t : Task, s ("task:" ++ tid) = some (StoreVal.task t)
          ∧ t.status ∉ TERMINAL_STATES)
      ∧ (b = false → s2 = s)
      ∧ (∀ t : Task, s ("task:" ++ tid) = some (StoreVal.task t) →
          t.status ∉ TERMINAL_STATES →
          s2 ("task:" ++ tid)
            = some (StoreVal.task { t with status := TaskStatus.cancelled })
          ∧ ∀ k, k ≠ ("task:" ++ tid) → s2 k = s k) := by
  rcases hwf with hnone | ⟨t, hsome, hid⟩
  · refine ⟨false, s, ?_, ?_, ?_, ?_⟩
    · unfold cancel; rw [hnone]
    · simp only [Bool.false_eq_true, false_iff]
      rintro ⟨t, ht, -⟩
      rw [hnone] at ht
      exact Option.noConfusion ht
    · intro _; rfl
    · intro t ht
      rw [hnone] at ht
      exact absurd ht (by simp)
  · by_cases hterm : t.status ∈ TERMINAL_STATES
    · refine ⟨false, s, ?_, ?_, ?_, ?_⟩
      · unfold cancel; rw [hsome]; simp [hterm]
      · simp only [Bool.false_eq_true, false_iff]
        rintro ⟨t2, ht2, hterm2⟩
        rw [hsome] at ht2
        injection ht2 with ht2
        injection ht2 with ht2
        exact hterm2 (ht2 ▸ hterm)
      · intro _; rfl
      · intro t2 ht2 hterm2
        rw [hsome] at ht2
        injection ht2 with ht2
        injection ht2 with ht2
        exact absurd (ht2 ▸ hterm) hterm2
    · refine ⟨true, s.set ("task:" ++ t.id)
          (StoreVal.task { t with status := TaskStatus.cancelled }), ?_, ?_, ?_, ?_⟩
      · unfold cancel; rw [hsome]; simp [hterm]
      · simp only [true_iff]
        exact ⟨t, hsome, hterm⟩
      · intro hfalse; exact absurd hfalse (by simp)
      · intro t2 ht2 hterm2
        rw [hsome] at ht2
        injection ht2 with ht2
        injection ht2 with ht2
        subst ht2
        constructor
        · simp [Store.set, hid]
        · intro k hk
          have : k ≠ ("task:" ++ t.id) := by rw [hid]; exact hk
          simp [Store.set, this]

/-- Witness for C8: cancelling a concrete running task succeeds. -/
theorem C8_cancel_iff_witness :
    ((Store.empty.set ("task:" ++ sampleId)
        (StoreVal.task (sampleTask sampleId "k" TaskStatus.running)))
      ("task:" ++ sampleId)
      = some (StoreVal.task (sampleTask sampleId "k" TaskStatus.running))
      ∧ (sampleTask sampleId "k" TaskStatus.running).id = sampleId)
    ∧ ∃ b s2,
        cancel (Store.empty.set ("task:" ++ sampleId)
          (StoreVal.task (sampleTask sampleId "k" TaskStatus.running))) sampleId
          = Except.ok (b, s2)
        ∧ b = true :=
  have hlook : (Store.empty.set ("task:" ++ sampleId)
      (StoreVal.task (sampleTask sampleId "k" TaskStatus.running)))
      ("task:" ++ sampleId)
      = some (StoreVal.task (sampleTask sampleId "k" TaskStatus.running)) := by
    simp [Store.set]
  have h := C8_cancel_iff
    (Store.empty.set ("task:" ++ sampleId)
      (StoreVal.task (sampleTask sampleId "k" TaskStatus.running))) sampleId
    (Or.inr ⟨sampleTask sampleId "k" TaskStatus.running, hlook, rfl⟩)
  ⟨⟨hlook, rfl⟩, by
    obtain ⟨b, s2, heq, hiff, -, -⟩ := h
    exact ⟨b, s2, heq, hiff.mpr
      ⟨sampleTask sampleId "k" TaskStatus.running, hlook, by decide⟩⟩⟩

/-- A `submit` that finds the idempotency mapping present returns the stored
string and performs no store write and no controller call. -/
theorem submit_present (s : Store) (cc : Option ConcurrencyController) (t : Task)
    (v : StoreVal) (h : s ("idempotency:" ++ t.idempotency_key) = some v) :
    submit s cc t = (v.asString, s, cc) := by
  unfold submit; rw [h]

/-- A `submit` that finds the idempotency key unmapped returns the task's own
id and writes both the mapping and the task record. -/
theorem submit_absent (s : Store) (cc : Option ConcurrencyController) (t : Task)
    (h0 : s ("idempotency:" ++ t.idempotency_key) = none) :
    (submit s cc t).1 = t.id
    ∧ (submit s cc t).2.1 ("idempotency:" ++ t.idempotency_key)
        = some (StoreVal.str t.id)
    ∧ (∃ rec : Task, (submit s cc t).2.1 ("task:" ++ t.id)
        = some (StoreVal.task rec) ∧ rec.id = t.id) := by
  have hne : ("idempotency:" ++ t.idempotency_key) ≠ ("task:" ++ t.id) :=
    fun hh => task_key_ne_idem_key t.id t.idempotency_key hh.symm
  unfold submit
  rw [h0]
  cases cc with
  | none =>
      refine ⟨rfl, ?_, ?_⟩
      · simp [Store.set, hne]
      · exact ⟨{ t with status := TaskStatus.starting }, by simp [Store.set], rfl⟩
  | some c =>
      dsimp only
      by_cases hacq : (c.acquire).1
      · rw [if_pos hacq]
        refine ⟨rfl, ?_, ?_⟩
        · simp [Store.set, hne]
        · exact ⟨{ t with status := TaskStatus.starting }, by simp [Store.set], rfl⟩
      · rw [if_neg hacq]
        refine ⟨rfl, ?_, ?_⟩
        · simp [Store.set, hne]
        · exact ⟨t, by simp [Store.set], rfl⟩

/-- Later `submit` calls with an already-mapped key all return the mapped id
and change nothing. -/
theorem submitSeq_mapped (tkey tid : String) (rest : List Task) :
    ∀ (s : Store) (cc : Option ConcurrencyController),
      s ("idempotency:" ++ tkey) = some (StoreVal.str tid) →
      (∀ u ∈ rest, u.idempotency_key = tkey) →
      submitSeq s cc rest = (rest.map (fun _ => tid), s, cc) := by
  induction rest with
  | nil => intro s cc _ _; rfl
  | cons u rest ih =>
      intro s cc hmap hkeys
      have hu : u.idempotency_key = tkey := hkeys u (List.mem_cons_self u rest)
      have hpres : s ("idempotency:" ++ u.idempotency_key)
          = some (StoreVal.str tid) := by rw [hu]; exact hmap
      have h1 := submit_present s cc u (StoreVal.str tid) hpres
      simp only [submitSeq, h1]
      rw [ih s cc hmap (fun w hw => hkeys w (List.mem_cons_of_mem u hw))]
      simp [StoreVal.asString]

/-- C2: with the idempotency key initially unmapped, the first of a sequence
of `submit` calls sharing that key writes the mapping
`idempotency:{key} → task.id` and the task record; every call of the
sequence returns the first task's id; and every later call leaves the store
and the concurrency controller exactly as the first call left them.  In
general, any `submit` that finds the mapping present performs no store write
and no controller call. -/
theorem C2_submit_idempotency (s : Store) (cc : Option ConcurrencyController)
    (t : Task) (rest : List Task)
    (h0 : s ("idempotency:" ++ t.idempotency_key) = none)
    (hkeys : ∀ u ∈ rest, u.idempotency_key = t.idempotency_key) :
    (submit s cc t).1 = t.id
    ∧ (submit s cc t).2.1 ("idempotency:" ++ t.idempotency_key)
        = some (StoreVal.str t.id)
    ∧ (∃ rec : Task, (submit s cc t).2.1 ("task:" ++ t.id)
        = some (StoreVal.task rec) ∧ rec.id = t.id)
    ∧ (∀ i ∈ (submitSeq s cc (t :: rest)).1, i = t.id)
    ∧ (submitSeq s cc (t :: rest)).2.1 = (submit s cc t).2.1
    ∧ (submitSeq s cc (t :: rest)).2.2 = (submit s cc t).2.2
    ∧ (∀ (s2 : Store) (cc2 : Option ConcurrencyController) (u : Task) (v : StoreVal),
        s2 ("idempotency:" ++ u.idempotency_key) = some v →
        submit s2 cc2 u = (v.asString, s2, cc2)) := by
  obtain ⟨hret, hmap, hrec⟩ := submit_absent s cc t h0
  have hseq := submitSeq_mapped t.idempotency_key t.id rest
    (submit s cc t).2.1 (submit s cc t).2.2 hmap hkeys
  refine ⟨hret, hmap, hrec, ?_, ?_, ?_, submit_present⟩
  · intro i hi
    simp only [submitSeq] at hi
    rw [hseq] at hi
    rcases List.mem_cons.mp hi with h | h
    · rw [h, hret]
    · obtain ⟨x, -, hx⟩ := List.mem_map.mp h
      exact hx.symm
  · simp only [submitSeq]
    rw [hseq]
  · simp only [submitSeq]
    rw [hseq]

/-- Witness for C2 on a concrete empty store, no controller, and two tasks
sharing the key `k`. -/
theorem C2_submit_idempotency_witness :
    (Store.empty ("idempotency:" ++ (sampleTask sampleId "k" TaskStatus.pending).idempotency_key)
      = none)
    ∧ (∀ u ∈ [sampleTask sampleId2 "k" TaskStatus.pending],
        u.idempotency_key = (sampleTask sampleId "k" TaskStatus.pending).idempotency_key)
    ∧ (∀ i ∈ (submitSeq Store.empty none
        [sampleTask sampleId "k" TaskStatus.pending,
         sampleTask sampleId2 "k" TaskStatus.pending]).1,
        i = (sampleTask sampleId "k" TaskStatus.pending).id) :=
  ⟨rfl, by decide,
    (C2_submit_idempotency Store.empty none
      (sampleTask sampleId "k" TaskStatus.pending)
      [sampleTask sampleId2 "k" TaskStatus.pending] rfl (by decide)).2.2.2.1⟩

/-- `submit_answer` aimed at another task never changes a task's future. -/
theorem submit_answer_other (q : QHState) (tid2 a tid : String) (h : tid ≠ tid2) :
    (submit_answer q tid2 a).2.answer_futures tid = q.answer_futures tid := by
  unfold submit_answer
  cases hf : q.answer_futures tid2 with
  | none => rfl
  | some fv =>
      cases fv with
      | pendingF => simp [h]
      | doneF ans => rfl

/-- `submit_answer` against anything but an unfulfilled future is a `False`
no-op. -/
theorem submit_answer_not_pending (q : QHState) (tid a : String)
    (h : ¬ q.answer_futures tid = some FutVal.pendingF) :
    submit_answer q tid a = (false, q) := by
  unfold submit_answer
  cases hf : q.answer_futures tid with
  | none => rfl
  | some fv =>
      cases fv with
      | pendingF => exact absurd hf h
      | doneF ans => rfl

/-- `submit_answer` against an unfulfilled future returns `True` and fulfils
it. -/
theorem submit_answer_pending (q : QHState) (tid a : String)
    (h : q.answer_futures tid = some FutVal.pendingF) :
    (submit_answer q tid a).1 = true
    ∧ (submit_answer q tid a).2.answer_futures tid = some (FutVal.doneF a) := by
  unfold submit_answer
  rw [h]
  exact ⟨rfl, by simp⟩

/-- Unfolding `countTrueFor` one recorded call at a time. -/
theorem countTrueFor_cons (tid a : String) (b : Bool) (rs : List (String × Bool)) :
    countTrueFor tid ((a, b) :: rs)
      = (if (a == tid && b) = true then 1 else 0) + countTrueFor tid rs := by
  unfold countTrueFor
  rw [List.filter_cons]
  split_ifs <;> simp [Nat.add_comm]

/-- Once the future of `tid` is not an unfulfilled one, no later
`submit_answer` call aimed at `tid` returns `True`. -/
theorem countTrueFor_zero (tid : String) (calls : List (String × String)) :
    ∀ q : QHState, ¬ q.answer_futures tid = some FutVal.pendingF →
      countTrueFor tid (submitAnswerResults q calls) = 0 := by
  induction calls with
  | nil => intro q _; rfl
  | cons c rest ih =>
      intro q h
      obtain ⟨tid2, a⟩ := c
      simp only [submitAnswerResults]
      rw [countTrueFor_cons]
      by_cases he : tid2 = tid
      · subst he
        have hsa := submit_answer_not_pending q tid2 a h
        rw [hsa]
        simpa using ih q h
      · have hbeq : (tid2 == tid) = false := beq_false_of_ne he
        rw [hbeq]
        simp only [Bool.false_and, Bool.false_eq_true, if_false, Nat.zero_add]
        apply ih
        rw [submit_answer_other q tid2 a tid (fun hh => he hh.symm)]
        exact h

/-- Over any sequence of `submit_answer` calls, at most one call aimed at a
given task returns `True`. -/
theorem countTrueFor_le_one (tid : String) (calls : List (String × String)) :
    ∀ q : QHState, countTrueFor tid (submitAnswerResults q calls) ≤ 1 := by
  induction calls with
  | nil => intro q; exact Nat.zero_le 1
  | cons c rest ih =>
      intro q
      obtain ⟨tid2, a⟩ := c
      simp only [submitAnswerResults]
      rw [countTrueFor_cons]
      by_cases he : tid2 = tid
      · subst he
        by_cases hp : q.answer_futures tid2 = some FutVal.pendingF
        · have h1 := submit_answer_pending q tid2 a hp
          have hz : countTrueFor tid2 (submitAnswerResults (submit_answer q tid2 a).2 rest) = 0 :=
            countTrueFor_zero tid2 rest _ (by rw [h1.2]; simp)
          rw [hz, h1.1]
          simp
        · have hsa := submit_answer_not_pending q tid2 a hp
          rw [hsa]
          simpa using ih q
      · have hbeq : (tid2 == tid) = false := beq_false_of_ne he
        rw [hbeq]
        simp only [Bool.false_and, Bool.false_eq_true, if_false, Nat.zero_add]
        exact ih _

/-- C9: `submit_answer(task_id, answer)` returns `True` exactly when an
answer future for `task_id` is registered and unfulfilled, and exactly then
fulfils it with the answer; a `False` call changes nothing; over any call
sequence at most one call per task returns `True`; and after the cleanup that
both the answer and the timeout paths run, every call returns `False`. -/
theorem C9_submit_answer_spec (q : QHState) (tid ans : String) :
    ((submit_answer q tid ans).1 = true ↔ q.answer_futures tid = some FutVal.pendingF)
    ∧ (q.answer_futures tid = some FutVal.pendingF →
        (submit_answer q tid ans).2.answer_futures tid = some (FutVal.doneF ans))
    ∧ ((submit_answer q tid ans).1 = false → (submit_answer q tid ans).2 = q)
    ∧ (∀ calls : List (String × String),
        countTrueFor tid (submitAnswerResults q calls) ≤ 1)
    ∧ (∀ ans2, (submit_answer (handle_question_cleanup q tid) tid ans2).1 = false) := by
  refine ⟨?_, ?_, ?_, fun calls => countTrueFor_le_one tid calls q, ?_⟩
  · constructor
    · intro h
      by_contra hnp
      rw [submit_answer_not_pending q tid ans hnp] at h
      exact Bool.noConfusion h
    · intro h
      exact (submit_answer_pending q tid ans h).1
  · intro h
    exact (submit_answer_pending q tid ans h).2
  · intro h
    by_cases hp : q.answer_futures tid = some FutVal.pendingF
    · rw [(submit_answer_pending q tid ans hp).1] at h
      exact Bool.noConfusion h
    · rw [submit_answer_not_pending q tid ans hp]
  · intro ans2
    have : ¬ (handle_question_cleanup q tid).answer_futures tid = some FutVal.pendingF := by
      unfold handle_question_cleanup
      simp
    rw [submit_answer_not_pending _ tid ans2 this]

/-- Witness for C9 on a handler state with one unfulfilled future. -/
theorem C9_submit_answer_spec_witness :
    sampleQH.answer_futures sampleId = some FutVal.pendingF
    ∧ (submit_answer sampleQH sampleId "yes").1 = true :=
  ⟨rfl, (C9_submit_answer_spec sampleQH sampleId "yes").1.mpr rfl⟩

/-- C10: `get_status` on a task id with no live entry — never created, or
already removed by `destroy` — returns `terminated` rather than failing; on a
live entry it returns that entry's recorded status. -/
theorem C10_get_status_default (m : SandboxMap) (tid : String) :
    (m tid = none → get_status m tid = SandboxStatus.terminated)
    ∧ (∀ sb : Sandbox, m tid = some sb → get_status m tid = sb.status)
    ∧ get_status (destroy m tid) tid = SandboxStatus.terminated := by
  refine ⟨?_, ?_, ?_⟩
  · intro h; unfold get_status; rw [h]
  · intro sb h; unfold get_status; rw [h]
  · have hd : (destroy m tid) tid = none := by
      unfold destroy
      cases hm : m tid with
      | none => exact hm
      | some sb => simp
    unfold get_status
    rw [hd]

/-- Witness for C10 on a concrete one-entry sandbox map. -/
theorem C10_get_status_default_witness :
    sampleSandboxMap sampleId = some sampleSandbox
    ∧ get_status sampleSandboxMap sampleId = sampleSandbox.status :=
  ⟨rfl, (C10_get_status_default sampleSandboxMap sampleId).2.1 sampleSandbox rfl⟩

/-- C3 counterexample: the claim fails on the code.  A task persisted as
`cancelled` (terminal) that receives a question is rewritten to
`waiting_user` by `QuestionHandler.handle_question`, which persists the new
status without consulting the stored record; likewise a queued task whose
record was cancelled is rewritten to `starting` by
`TaskManagerImpl.on_task_complete` when a slot frees up. -/
theorem C3_counterexample :
    ((Store.empty.set ("task:" ++ sampleId)
        (StoreVal.task (sampleTask sampleId "k" TaskStatus.cancelled)))
      ("task:" ++ sampleId)
        = some (StoreVal.task (sampleTask sampleId "k" TaskStatus.cancelled)))
    ∧ (sampleTask sampleId "k" TaskStatus.cancelled).status ∈ TERMINAL_STATES
    ∧ ((handle_question_start
          (Store.empty.set ("task:" ++ sampleId)
            (StoreVal.task (sampleTask sampleId "k" TaskStatus.cancelled)))
          QHState.init (sampleTask sampleId "k" TaskStatus.cancelled)
          "Delete src/legacy?" 600).1
        ("task:" ++ sampleId)
        = some (StoreVal.task (sampleTask sampleId "k" TaskStatus.waiting_user)))
    ∧ TaskStatus.waiting_user ≠ TaskStatus.cancelled
    ∧ ((on_task_complete
          (Store.empty.set ("task:" ++ sampleId)
            (StoreVal.task (sampleTask sampleId "k" TaskStatus.cancelled)))
          (some { max_concurrent := 3, running_count := 1,
                  queue := [sampleTask sampleId "k" TaskStatus.pending] })).2.1
        ("task:" ++ sampleId)
        = some (StoreVal.task (sampleTask sampleId "k" TaskStatus.starting)))
    ∧ TaskStatus.starting ≠ TaskStatus.cancelled :=
  ⟨rfl, by decide, rfl, by decide, rfl, by decide⟩

/-- C3 amended: for a task whose persisted status is terminal,
`TaskManagerImpl.cancel` returns `False` and writes nothing, and
`TaskManagerImpl.submit` of any other task leaves that task's record
untouched (its writes go only to the submitted task's own keys); but the
QuestionHandler's question flow — and `on_task_complete` for a queued task —
persist new statuses without checking the stored record, and do overwrite a
terminal status. -/
theorem C3_amended_terminal_guard (s : Store) (tid : String) (t : Task)
    (hrec : s ("task:" ++ tid) = some (StoreVal.task t))
    (hterm : t.status ∈ TERMINAL_STATES) :
    cancel s tid = Except.ok (false, s)
    ∧ (∀ (cc : Option ConcurrencyController) (u : Task), u.id ≠ tid →
        (submit s cc u).2.1 ("task:" ++ tid) = s ("task:" ++ tid))
    ∧ (∃ (s2 : Store) (t2 : Task),
        s2 ("task:" ++ t2.id) = some (StoreVal.task t2)
        ∧ t2.status ∈ TERMINAL_STATES
        ∧ (handle_question_start s2 QHState.init t2 "q" 600).1 ("task:" ++ t2.id)
            = some (StoreVal.task { t2 with status := TaskStatus.waiting_user })
        ∧ TaskStatus.waiting_user ≠ t2.status) := by
  refine ⟨?_, ?_, ?_⟩
  · unfold cancel
    rw [hrec]
    simp [hterm]
  · intro cc u hne
    have hne1 : ("task:" ++ tid) ≠ ("idempotency:" ++ u.idempotency_key) :=
      task_key_ne_idem_key tid u.idempotency_key
    have hne2 : ("task:" ++ tid) ≠ ("task:" ++ u.id) :=
      fun hh => hne (task_key_inj hh).symm
    unfold submit
    cases hmap : s ("idempotency:" ++ u.idempotency_key) with
    | some v => rfl
    | none =>
        cases cc with
        | none => simp [Store.set, hne1, hne2]
        | some c =>
            dsimp only
            by_cases hacq : (c.acquire).1
            · rw [if_pos hacq]; simp [Store.set, hne1, hne2]
            · rw [if_neg hacq]; simp [Store.set, hne1, hne2]
  · exact ⟨Store.empty.set ("task:" ++ sampleId2)
        (StoreVal.task (sampleTask sampleId2 "k2" TaskStatus.completed)),
      sampleTask sampleId2 "k2" TaskStatus.completed,
      by decide, by decide, rfl, by decide⟩

/-- Witness for the amended C3 on a concrete store holding a completed
task. -/
theorem C3_amended_terminal_guard_witness :
    ((Store.empty.set ("task:" ++ sampleId)
        (StoreVal.task (sampleTask sampleId "k" TaskStatus.completed)))
      ("task:" ++ sampleId)
        = some (StoreVal.task (sampleTask sampleId "k" TaskStatus.completed)))
    ∧ (sampleTask sampleId "k" TaskStatus.completed).id = sampleId
    ∧ (sampleTask sampleId "k" TaskStatus.completed).status ∈ TERMINAL_STATES
    ∧ cancel (Store.empty.set ("task:" ++ sampleId)
        (StoreVal.task (sampleTask sampleId "k" TaskStatus.completed))) sampleId
        = Except.ok (false, Store.empty.set ("task:" ++ sampleId)
            (StoreVal.task (sampleTask sampleId "k" TaskStatus.completed))) :=
  have hlook : (Store.empty.set ("task:" ++ sampleId)
      (StoreVal.task (sampleTask sampleId "k" TaskStatus.completed)))
      ("task:" ++ sampleId)
      = some (StoreVal.task (sampleTask sampleId "k" TaskStatus.completed)) := by
    simp [Store.set]
  ⟨hlook, rfl, by decide,
    (C3_amended_terminal_guard _ sampleId
      (sampleTask sampleId "k" TaskStatus.completed) hlook (by decide)).1⟩

/-- C4 (against the code as it stands): `SandboxConfig` in models.py declares
no `repository_url`, so `_build_execution_command` raises `AttributeError`
for every config instead of building (or omitting) a command; on the
spec-and-test-modelled config, a missing `repository_url` yields no injected
command, as the claim states. -/
theorem C4_sandbox_config_missing_fields :
    ("repository_url" ∉ sandboxConfigFields)
    ∧ (∀ cfg : SandboxConfig, build_execution_command cfg
        = Except.error "AttributeError: repository_url")
    ∧ (∀ cfg : SandboxConfigSpec, cfg.repository_url = none →
        build_execution_command_spec cfg = none) := by
  refine ⟨by decide, fun cfg => rfl, fun cfg h => ?_⟩
  unfold build_execution_command_spec
  rw [h]

/-- Witness for C4 at the concrete failing input: a config with no
repository URL. -/
theorem C4_sandbox_config_missing_fields_witness :
    build_execution_command
        { image := "claude-sandbox:latest", cpu := 1, memory_gb := 1, environment := [] }
      = Except.error "AttributeError: repository_url"
    ∧ ({ image := "claude-sandbox:latest", cpu := 1, memory_gb := 1,
          environment := [] } : SandboxConfigSpec).repository_url = none
    ∧ build_execution_command_spec
        { image := "claude-sandbox:latest", cpu := 1, memory_gb := 1, environment := [] }
      = none :=
  ⟨C4_sandbox_config_missing_fields.2.1 _, rfl,
    C4_sandbox_config_missing_fields.2.2 _ rfl⟩

/-- The bounded append, in closed form, for a queue within capacity. -/
theorem add_to_local_queue_eq (q : List (String × String)) (cm : String × String)
    (hq : q.length ≤ 100) :
    add_to_local_queue q cm = (q ++ [cm]).drop ((q.length + 1) - 100) := by
  unfold add_to_local_queue LOCAL_QUEUE_MAX_SIZE
  simp only [List.length_append, List.length_cons, List.length_nil]
  split_ifs with h
  · rfl
  · rw [Nat.sub_eq_zero_of_le (by omega), List.drop_zero]

/-- Folding the bounded append keeps the suffix of capacity length. -/
theorem foldl_add_to_local_queue (msgs : List (String × String)) :
    ∀ q : List (String × String), q.length ≤ 100 →
      msgs.foldl add_to_local_queue q
        = (q ++ msgs).drop ((q ++ msgs).length - 100) := by
  induction msgs with
  | nil =>
      intro q hq
      simp only [List.foldl_nil, List.append_nil]
      rw [Nat.sub_eq_zero_of_le (by omega), List.drop_zero]
  | cons m rest ih =>
      intro q hq
      simp only [List.foldl_cons]
      rw [add_to_local_queue_eq q m hq]
      have hlen : ((q ++ [m]).drop ((q.length + 1) - 100)).length ≤ 100 := by
        rw [List.length_drop]
        simp only [List.length_append, List.length_cons, List.length_nil]
        omega
      rw [ih _ hlen]
      have hd : (q.length + 1) - 100 ≤ (q ++ [m]).length := by
        simp only [List.length_append, List.length_cons, List.length_nil]
        omega
      rw [← List.drop_append_of_le_length hd, List.drop_drop]
      have hlist : (q ++ [m]) ++ rest = q ++ m :: rest := by simp
      rw [hlist]
      have harith : ∀ a b : Nat, a = b →
          (q ++ m :: rest).drop a = (q ++ m :: rest).drop b :=
        fun a b hab => by rw [hab]
      apply harith
      simp only [List.length_drop, List.length_append, List.length_cons, List.length_nil]
      omega

/-- Publishing while disconnected never flips the flag and only appends to
the bounded queue. -/
theorem publishAllDisconnected_spec (msgs : List (String × String)) :
    ∀ st : RedisClientState, st.connected = false →
      (publishAllDisconnected st msgs).connected = false
      ∧ (publishAllDisconnected st msgs).local_queue
          = msgs.foldl add_to_local_queue st.local_queue := by
  induction msgs with
  | nil => intro st h; exact ⟨h, rfl⟩
  | cons m rest ih =>
      intro st h
      have hp : (publish false st m).1
          = { st with local_queue := add_to_local_queue st.local_queue m } := by
        unfold publish
        rw [h]
        simp
      have hstep : publishAllDisconnected st (m :: rest)
          = publishAllDisconnected
              { st with local_queue := add_to_local_queue st.local_queue m } rest := by
        unfold publishAllDisconnected
        simp only [List.foldl_cons, hp]
      rw [hstep]
      have hconn : ({ st with local_queue := add_to_local_queue st.local_queue m }
          : RedisClientState).connected = false := h
      have hrec := ih { st with local_queue := add_to_local_queue st.local_queue m } hconn
      refine ⟨hrec.1, ?_⟩
      rw [hrec.2]
      rfl

/-- With a healthy transport, the flush delivers the whole queue in order and
leaves it empty. -/
theorem flushLocalQueue_all_ok (q : List (String × String)) :
    ∀ n : Nat, flushLocalQueue (fun _ => true) n q = (q, []) := by
  induction q with
  | nil => intro n; rfl
  | cons m rest ih =>
      intro n
      simp [flushLocalQueue, ih (n + 1)]

/-- C5: N publishes on a disconnected client raise no error to any caller —
each returns after appending to the bounded local queue — and leave exactly
the most recent `min N 100` messages queued in publish order; after a
successful reconnection the flush delivers exactly those, in order, so for
N ≤ 100 everything is delivered and for N > 100 the oldest N − 100 are
discarded. -/
theorem C5_publish_buffering (msgs : List (String × String)) :
    ((publishAllDisconnected { connected := false, local_queue := [] } msgs).connected = false)
    ∧ (publishAllDisconnected { connected := false, local_queue := [] } msgs).local_queue
        = (if msgs.length ≤ 100 then msgs else msgs.drop (msgs.length - 100))
    ∧ (flushLocalQueue (fun _ => true) 0
          (publishAllDisconnected { connected := false, local_queue := [] } msgs).local_queue)
        = ((if msgs.length ≤ 100 then msgs else msgs.drop (msgs.length - 100)), [])
    ∧ (∀ (st : RedisClientState) (cm : String × String) (td : Bool),
        st.connected = false →
        publish td st cm
          = ({ st with local_queue := add_to_local_queue st.local_queue cm }, none)) := by
  have hqueue : (publishAllDisconnected { connected := false, local_queue := [] } msgs).local_queue
      = (if msgs.length ≤ 100 then msgs else msgs.drop (msgs.length - 100)) := by
    have h := (publishAllDisconnected_spec msgs { connected := false, local_queue := [] } rfl).2
    rw [h]
    have h2 := foldl_add_to_local_queue msgs [] (by simp)
    simp only [List.nil_append] at h2
    rw [h2]
    split_ifs with hle
    · rw [Nat.sub_eq_zero_of_le hle, List.drop_zero]
    · rfl
  refine ⟨(publishAllDisconnected_spec msgs _ rfl).1, hqueue, ?_, ?_⟩
  · rw [hqueue, flushLocalQueue_all_ok]
  · intro st cm td h
    unfold publish
    rw [h]
    simp

/-- Witness for C5's no-error clause at a concrete disconnected state. -/
theorem C5_publish_buffering_witness :
    ({ connected := false, local_queue := [] } : RedisClientState).connected = false
    ∧ publish true { connected := false, local_queue := [] } ("progress:t", "hello")
        = ({ connected := false, local_queue := [("progress:t", "hello")] }, none) :=
  ⟨rfl, (C5_publish_buffering []).2.2.2
    { connected := false, local_queue := [] } ("progress:t", "hello") true rfl⟩

/-- The backoff run by `_reconnect` matches the spec's stream
1, 2, 4, 8, 16, 30, 30, … -/
theorem backoffAt_eq (i : Nat) : backoffAt i = backoffStream i := by
  induction i with
  | zero => norm_num [backoffAt, backoffStream, INITIAL_BACKOFF]
  | succ n ih =>
      show nextBackoff (backoffAt n) = backoffStream (n + 1)
      rw [ih]
      unfold nextBackoff backoffStream BACKOFF_MULTIPLIER MAX_BACKOFF
      by_cases h : n + 1 < 5
      · have hn : n < 5 := by omega
        rw [if_pos hn, if_pos h]
        have hpow : (2 : ℚ) ^ n * 2 = 2 ^ (n + 1) := by ring
        rw [hpow]
        apply min_eq_left
        calc (2 : ℚ) ^ (n + 1) ≤ 2 ^ 4 := by
              apply pow_le_pow_right₀ (by norm_num) (by omega)
          _ ≤ 30 := by norm_num
      · rw [if_neg h]
        by_cases hn : n < 5
        · have hn4 : n = 4 := by omega
          subst hn4
          rw [if_pos hn]
          norm_num
        · rw [if_neg hn]
          norm_num

/-- The sleeps of a `_reconnect` run that first succeeds at attempt `j + k`,
started at attempt `j` with the backoff in force there. -/
theorem reconnectSleeps_eq (pingOk : Nat → Bool) :
    ∀ (k fuel j : Nat), (∀ i, j ≤ i → i < j + k → pingOk i = false) →
      pingOk (j + k) = true → k < fuel →
      reconnectSleeps pingOk fuel (backoffAt j) j
        = (List.range k).map (fun i => backoffAt (j + i)) := by
  intro k
  induction k with
  | zero =>
      intro fuel j _ hsucc hfuel
      obtain ⟨f, rfl⟩ : ∃ f, fuel = f + 1 := ⟨fuel - 1, by omega⟩
      simp only [reconnectSleeps]
      rw [show j + 0 = j from rfl] at hsucc
      rw [hsucc]
      rfl
  | succ n ih =>
      intro fuel j hfail hsucc hfuel
      obtain ⟨f, rfl⟩ : ∃ f, fuel = f + 1 := ⟨fuel - 1, by omega⟩
      simp only [reconnectSleeps]
      rw [hfail j le_rfl (by omega)]
      simp only [Bool.false_eq_true, if_false]
      have hnext : nextBackoff (backoffAt j) = backoffAt (j + 1) := rfl
      rw [hnext,
        ih f (j + 1) (fun i h1 h2 => hfail i (by omega) (by omega))
          (by rw [show j + 1 + n = j + (n + 1) from by omega]; exact hsucc)
          (by omega)]
      rw [List.range_succ_eq_map]
      simp only [List.map_cons, List.map_map, Nat.add_zero]
      congr 1
      apply List.map_congr_left
      intro i _
      simp only [Function.comp_apply]
      congr 1
      omega

/-- C6: a `_reconnect` run with `k` failed ping attempts before success
sleeps exactly the first `k` elements of 1, 2, 4, 8, 16, 30, 30, …, and no
interval exceeds 30 seconds. -/
theorem C6_reconnect_backoff (k fuel : Nat) (pingOk : Nat → Bool)
    (hfail : ∀ i, i < k → pingOk i = false) (hsucc : pingOk k = true)
    (hfuel : k < fuel) :
    reconnectSleeps pingOk fuel INITIAL_BACKOFF 0
      = (List.range k).map backoffStream
    ∧ (∀ x ∈ reconnectSleeps pingOk fuel INITIAL_BACKOFF 0, x ≤ 30) := by
  have hmain : reconnectSleeps pingOk fuel INITIAL_BACKOFF 0
      = (List.range k).map backoffStream := by
    have h := reconnectSleeps_eq pingOk k fuel 0
      (fun i _ h2 => hfail i (by omega)) (by simpa using hsucc) hfuel
    have h0 : INITIAL_BACKOFF = backoffAt 0 := rfl
    rw [h0, h]
    apply List.map_congr_left
    intro i _
    rw [Nat.zero_add, backoffAt_eq]
  refine ⟨hmain, ?_⟩
  rw [hmain]
  intro x hx
  obtain ⟨i, -, rfl⟩ := List.mem_map.mp hx
  unfold backoffStream
  split_ifs with h
  · have h1 : (2 : ℚ) ^ i ≤ 2 ^ 4 := by
      apply pow_le_pow_right₀ (by norm_num) (by omega)
    have h2 : (2 : ℚ) ^ 4 ≤ 30 := by norm_num
    exact le_trans h1 h2
  · exact le_refl 30

/-- Witness for C6: seven failed attempts then success sleeps
1, 2, 4, 8, 16, 30, 30. -/
theorem C6_reconnect_backoff_witness :
    (∀ i, i < 7 → (fun n => decide (7 ≤ n)) i = false)
    ∧ (fun n => decide (7 ≤ n)) 7 = true
    ∧ (7 : Nat) < 8
    ∧ reconnectSleeps (fun n => decide (7 ≤ n)) 8 INITIAL_BACKOFF 0
        = (List.range 7).map backoffStream :=
  ⟨by decide, by decide, by decide,
    (C6_reconnect_backoff 7 8 (fun n => decide (7 ≤ n))
      (by decide) (by decide) (by decide)).1⟩

end SandboxBot
